import Mathlib

/-!
Shallow embedding of `src/pro1/game2.py`, a small tkinter arcade shooter.

Rendering (canvas item creation/deletion, text updates), input binding and the
tk timer are external collaborators; the embedding models the simulation state
and each periodic callback as a pure state transformer.  Python floats are
modelled as exact real numbers.  A Python `ValueError` raised by
`list.remove` on a non-member is modelled as `none` of an `Option` result,
propagated by the callers.  Python object identity for enemies/bullets held in
game-state lists is modelled with a numeric id field; fresh ids and the draws
of `random.randint` are threaded as explicit parameters.  `root.after` /
`canvas.after` self-rescheduling is modelled as a `Bool` "reschedules"
component of a periodic step's result.
-/

namespace Game2

/-- `math.hypot(dx, dy)` on exact reals. -/
noncomputable def hypot (dx dy : ℝ) : ℝ := Real.sqrt (dx ^ 2 + dy ^ 2)

/-- `math.atan2(y, x)`: four-quadrant arctangent with Python's semantics on
exact reals (`atan2(0, 0) = 0`). -/
noncomputable def atan2 (y x : ℝ) : ℝ :=
  if 0 < x then Real.arctan (y / x)
  else if x < 0 ∧ 0 ≤ y then Real.arctan (y / x) + Real.pi
  else if x < 0 then Real.arctan (y / x) - Real.pi
  else if 0 < y then Real.pi / 2
  else if y < 0 then -(Real.pi / 2)
  else 0

/-- `Player`: position, speed (5), health (3).  The canvas image/id fields are
rendering state and are not modelled. -/
structure Player where
  x : ℝ
  y : ℝ
  speed : ℝ := 5
  health : ℤ := 3

/-- `Enemy`: identity (`eid`, standing for the Python object identity),
position, speed (2). -/
structure Enemy where
  eid : ℕ
  x : ℝ
  y : ℝ
  speed : ℝ := 2

/-- `Bullet`: identity, position, speed (10), firing angle and the velocity
vector derived from it at creation, and the `alive` flag. -/
structure Bullet where
  bid : ℕ
  x : ℝ
  y : ℝ
  speed : ℝ := 10
  angle : ℝ
  dx : ℝ
  dy : ℝ
  alive : Bool := true

/-- The field computations of `Bullet.__init__` (`__init__` additionally
invokes `self.move()` once before returning; that first movement step is
`Game.bullet_move` applied to this bullet). -/
noncomputable def mkBullet (bid : ℕ) (start_x start_y target_x target_y : ℝ) :
    Bullet :=
  let speed : ℝ := 10
  let angle := atan2 (target_y - start_y) (target_x - start_x)
  { bid := bid, x := start_x, y := start_y, speed := speed, angle := angle,
    dx := speed * Real.cos angle, dy := speed * Real.sin angle, alive := true }

/-- `Enemy.move_towards(player_x, player_y)`. -/
noncomputable def Enemy.move_towards (e : Enemy) (player_x player_y : ℝ) :
    Enemy :=
  let dx := player_x - e.x
  let dy := player_y - e.y
  let distance := max (hypot dx dy) 1
  { e with x := e.x + (dx / distance) * e.speed,
           y := e.y + (dy / distance) * e.speed }

/-- `Enemy.is_hit(bullet_x, bullet_y)`. -/
noncomputable def Enemy.is_hit (e : Enemy) (bullet_x bullet_y : ℝ) : Prop :=
  hypot (e.x - bullet_x) (e.y - bullet_y) < 20

/-- `Player.move(dx, dy)` (the `canvas.coords` call is rendering). -/
def Player.move (p : Player) (dx dy : ℝ) : Player :=
  { p with x := p.x + dx * p.speed, y := p.y + dy * p.speed }

/-- `Game`: the mutable state of the `Game` class.  The canvas is created with
width 800 and height 600; `score_text` / `lives_text` are rendering state. -/
structure Game where
  player : Player
  enemies : List Enemy
  bullets : List Bullet
  pressed_keys : List String
  mouse_x : Option ℝ
  mouse_y : Option ℝ
  is_game_over : Bool
  score : ℕ
  width : ℝ := 800
  height : ℝ := 600

/-- Python `list.remove` on the enemy list: drops the first element with the
given identity, or reports `ValueError` (`none`) when no element matches. -/
def pyRemoveEnemy : List Enemy → ℕ → Option (List Enemy)
  | [], _ => none
  | a :: rest, i =>
      if a.eid = i then some rest
      else (pyRemoveEnemy rest i).map (fun l => a :: l)

/-- Python `list.remove` on the bullet list (same semantics). -/
def pyRemoveBullet : List Bullet → ℕ → Option (List Bullet)
  | [], _ => none
  | a :: rest, i =>
      if a.bid = i then some rest
      else (pyRemoveBullet rest i).map (fun l => a :: l)

/-- `Game.remove_enemy(enemy)`: `canvas.delete` (rendering), then
`self.enemies.remove(enemy)` — which raises `ValueError` (`none`) when the
enemy is not a member — then `update_score()` (rendering). -/
def Game.remove_enemy (g : Game) (e : Enemy) : Option Game :=
  (pyRemoveEnemy g.enemies e.eid).map (fun l => { g with enemies := l })

/-- `Game.remove_bullet(bullet)`: guarded by `if bullet in self.bullets`; on a
member it sets `bullet.alive = False`, deletes the visual (rendering) and
removes the bullet from the list; on a non-member it does nothing.  The result
carries the (possibly mutated) bullet object alongside the new game state. -/
def Game.remove_bullet (g : Game) (b : Bullet) : Game × Bullet :=
  match pyRemoveBullet g.bullets b.bid with
  | some l => ({ g with bullets := l }, { b with alive := false })
  | none => (g, b)

/-- `Game.game_over()`: sets the flag; the overlay rectangle, final-score
text, input unbinding and the delayed close-message are rendering/timer
effects outside the simulation state. -/
def Game.game_over (g : Game) : Game := { g with is_game_over := true }

/-- `Player.check_collision(enemy)`, lifted to the game state (it mutates
`self.health`, calls `update_lives()` (rendering) and possibly
`self.game.game_over()`).  Returns the new state and the boolean the method
returns. -/
noncomputable def Game.player_check_collision (g : Game) (e : Enemy) :
    Game × Bool :=
  if hypot (g.player.x - e.x) (g.player.y - e.y) < 20 then
    let p := { g.player with health := g.player.health - 1 }
    let g1 := { g with player := p }
    (if p.health ≤ 0 then g1.game_over else g1, true)
  else (g, false)

noncomputable instance (e : Enemy) (bx b_y : ℝ) : Decidable (e.is_hit bx b_y) :=
  inferInstanceAs (Decidable (hypot (e.x - bx) (e.y - b_y) < 20))

/-- The loop of `Bullet.check_collision`: `for enemy in self.game.enemies[:]`
stops at the first enemy within radius (the `break`). -/
noncomputable def firstHitEnemy (enemies : List Enemy) (bx b_y : ℝ) :
    Option Enemy :=
  enemies.find? (fun e => decide (e.is_hit bx b_y))

/-- `Bullet.check_collision()`: on the first enemy hit, `remove_enemy` (which
may raise `ValueError`, propagated as `none`), `remove_bullet(self)`,
`score += 1`, `update_score()` (rendering), then `break`. -/
noncomputable def Game.bullet_check_collision (g : Game) (b : Bullet) :
    Option (Game × Bullet) :=
  match firstHitEnemy g.enemies b.x b.y with
  | none => some (g, b)
  | some e =>
      (g.remove_enemy e).map (fun g1 =>
        let r := g1.remove_bullet b
        ({ r.1 with score := r.1.score + 1 }, r.2))

/-- `Bullet.is_in_bounds()`: `winfo_width`/`winfo_height` report the canvas
dimensions held in the game state. -/
def isInBounds (x y width height : ℝ) : Prop :=
  0 ≤ x ∧ x ≤ width ∧ 0 ≤ y ∧ y ≤ height

noncomputable instance (x y width height : ℝ) :
    Decidable (isInBounds x y width height) :=
  inferInstanceAs (Decidable (0 ≤ x ∧ x ≤ width ∧ 0 ≤ y ∧ y ≤ height))

/-- `Bullet.move()`: a no-op when the bullet is dead or the game is over;
otherwise Euler-step the position, remove the bullet when out of bounds, else
update the visual (rendering), run `check_collision`, and re-schedule itself
(`canvas.after(50, self.move)`) only when still alive.  The `Bool` component
records whether the callback re-scheduled itself. -/
noncomputable def Game.bullet_move (g : Game) (b : Bullet) :
    Option (Game × Bullet × Bool) :=
  if !b.alive || g.is_game_over then some (g, b, false)
  else
    let b1 := { b with x := b.x + b.dx, y := b.y + b.dy }
    if isInBounds b1.x b1.y g.width g.height then
      (g.bullet_check_collision b1).map (fun r => (r.1, r.2, r.2.alive))
    else
      let r := g.remove_bullet b1
      some (r.1, r.2, false)

/-- Iterated `Bullet.move` steps (the chain of `canvas.after(50, self.move)`
callbacks), stopping the iteration count, not the schedule. -/
noncomputable def bulletMoveN : ℕ → Game → Bullet → Option (Game × Bullet)
  | 0, g, b => some (g, b)
  | n + 1, g, b => (g.bullet_move b).bind (fun r => bulletMoveN n r.1 r.2.1)

/-- `Game.spawn_enemies(count)`: appends one enemy per random draw; `coords`
carries the `count` pairs drawn by `random.randint(50, 750)`,
`random.randint(50, 550)` together with the fresh object identities. -/
def Game.spawn_enemies (g : Game) (coords : List (ℕ × ℝ × ℝ)) : Game :=
  { g with enemies := g.enemies ++
      coords.map (fun c => { eid := c.1, x := c.2.1, y := c.2.2, speed := 2 }) }

/-- `Game.spawn_enemies_periodically()`: when the game is not over, spawn 3
enemies (`coords` holds the three draws) and re-schedule via
`root.after(5000, ...)`; otherwise do nothing and do not re-schedule. -/
def Game.spawn_enemies_periodically (g : Game) (coords : List (ℕ × ℝ × ℝ)) :
    Game × Bool :=
  if g.is_game_over = false then (g.spawn_enemies coords, true) else (g, false)

/-- `Player.shoot(target_x, target_y)`: when the game is not over, construct a
bullet; `Bullet.__init__` ends by invoking `move()` once (before the caller
can append the bullet to `game.bullets`), so the constructed bullet is
immediately stepped by `bullet_move`.  Returns the new game state and the
bullet object (`none` inner component when the game is over and no bullet was
produced). -/
noncomputable def Game.player_shoot (g : Game) (fresh : ℕ)
    (target_x target_y : ℝ) : Option (Game × Option Bullet) :=
  if g.is_game_over = false then
    (g.bullet_move (mkBullet fresh g.player.x g.player.y target_x target_y)).map
      (fun r => (r.1, some r.2.1))
  else some (g, none)

/-- `Game.shoot_continuously()`: fires toward the last mouse position when the
game is active and a position has been observed; the re-scheduling
`root.after(500, self.shoot_continuously)` is unconditional. -/
noncomputable def Game.shoot_continuously (g : Game) (fresh : ℕ) :
    Option (Game × Bool) :=
  (match g.is_game_over, g.mouse_x, g.mouse_y with
   | false, some mx, some my =>
       (g.player_shoot fresh mx my).map
         (fun (r : Game × Option Bullet) =>
           match r.2 with
           | some b => { r.1 with bullets := r.1.bullets ++ [b] }
           | none => r.1)
   | _, _, _ => some g : Option Game).map (fun g1 => (g1, true))

/-- `('d' in self.pressed_keys)` as the number Python arithmetic makes of it. -/
def keyVal (keys : List String) (k : String) : ℝ := if k ∈ keys then 1 else 0

/-- Mutation of one enemy object seen through the game-state list (enemy
objects are aliased between the iteration snapshot and `self.enemies`). -/
def setEnemy (l : List Enemy) (i : ℕ) (e' : Enemy) : List Enemy :=
  l.map (fun a => if a.eid = i then e' else a)

/-- The `for enemy in self.enemies[:]` loop of `Game.update`: each snapshot
enemy moves toward the player, then `player.check_collision(enemy)` and, on a
hit, `remove_enemy(enemy)` (a `ValueError` propagates as `none`). -/
noncomputable def updateLoop (g : Game) : List Enemy → Option Game
  | [] => some g
  | e :: rest =>
      let e1 := e.move_towards g.player.x g.player.y
      let g1 := { g with enemies := setEnemy g.enemies e.eid e1 }
      let r := g1.player_check_collision e1
      if r.2 then (r.1.remove_enemy e1).bind (fun g2 => updateLoop g2 rest)
      else updateLoop r.1 rest

/-- `Game.update()`: a non-rescheduling no-op when the game is over; otherwise
move the player by the pressed-keys delta, run the enemy loop, and re-schedule
via `root.after(50, self.update)`. -/
noncomputable def Game.update (g : Game) : Option (Game × Bool) :=
  if g.is_game_over then some (g, false)
  else
    let dx := keyVal g.pressed_keys "d" - keyVal g.pressed_keys "a"
    let dy := keyVal g.pressed_keys "s" - keyVal g.pressed_keys "w"
    let g1 := { g with player := g.player.move dx dy }
    (updateLoop g1 g1.enemies).map (fun g2 => (g2, true))

/-- Spec-side notion: the Euclidean distance between two points, written from
the spec's words for comparison with the code's collision predicates. -/
noncomputable def euclid (x1 y1 x2 y2 : ℝ) : ℝ :=
  Real.sqrt ((x1 - x2) ^ 2 + (y1 - y2) ^ 2)

theorem hypot_nonneg (a b : ℝ) : 0 ≤ hypot a b := Real.sqrt_nonneg _

theorem hypot_x_zero (a : ℝ) : hypot a 0 = |a| := by
  unfold hypot
  rw [show a ^ 2 + (0 : ℝ) ^ 2 = a ^ 2 by ring, Real.sqrt_sq_eq_abs]

theorem hypot_scale (c a b : ℝ) : hypot (a * c) (b * c) = |c| * hypot a b := by
  unfold hypot
  rw [show (a * c) ^ 2 + (b * c) ^ 2 = c ^ 2 * (a ^ 2 + b ^ 2) by ring,
    Real.sqrt_mul (sq_nonneg c), Real.sqrt_sq_eq_abs]

theorem hypot_comm_sub (x1 y1 x2 y2 : ℝ) :
    hypot (x1 - x2) (y1 - y2) = hypot (x2 - x1) (y2 - y1) := by
  unfold hypot
  rw [show (x1 - x2) ^ 2 + (y1 - y2) ^ 2 = (x2 - x1) ^ 2 + (y2 - y1) ^ 2 by
    ring]

/-- A concrete terminal game state. -/
def gOverW : Game :=
  { player := { x := 100, y := 100 }, enemies := [], bullets := [],
    pressed_keys := [], mouse_x := some 0, mouse_y := some 0,
    is_game_over := true, score := 0 }

/-- A concrete running game state with no enemies and no bullets. -/
def gActiveW : Game :=
  { player := { x := 100, y := 100 }, enemies := [], bullets := [],
    pressed_keys := [], mouse_x := none, mouse_y := none,
    is_game_over := false, score := 0 }

/-- A concrete enemy, away from everything. -/
def eW : Enemy := { eid := 7, x := 300, y := 300 }

/-- A concrete bullet heading in the `+x` direction. -/
def bW : Bullet :=
  { bid := 0, x := 100, y := 100, angle := 0, dx := 10, dy := 0 }

/-- `gActiveW` holding the single enemy `eW`. -/
def gOneEnemyW : Game := { gActiveW with enemies := [eW] }

/-- `gActiveW` holding the single bullet `bW`. -/
def gOneBulletW : Game := { gActiveW with bullets := [bW] }

/-- C5: for every pair of positions, the collision check used for both
player-enemy (`Player.check_collision`) and bullet-enemy (`Enemy.is_hit`)
interaction reports a hit exactly when the Euclidean distance is strictly
below 20 (distance ≥ 20 is never a hit), and the check is symmetric in the two
positions. -/
theorem C5_collision_threshold_exact (g : Game) (e : Enemy)
    (bx b_y s x1 y1 x2 y2 : ℝ) (n : ℕ) :
    ((g.player_check_collision e).2 = true ↔
      euclid g.player.x g.player.y e.x e.y < 20) ∧
    (e.is_hit bx b_y ↔ euclid e.x e.y bx b_y < 20) ∧
    (Enemy.is_hit ⟨n, x1, y1, s⟩ x2 y2 ↔ Enemy.is_hit ⟨n, x2, y2, s⟩ x1 y1) := by
  refine ⟨?_, Iff.rfl, ?_⟩
  · unfold Game.player_check_collision
    split
    · rename_i hlt
      exact iff_of_true rfl hlt
    · rename_i hge
      exact iff_of_false (by simp) hge
  · show hypot (x1 - x2) (y1 - y2) < 20 ↔ hypot (x2 - x1) (y2 - y1) < 20
    rw [hypot_comm_sub]

/-- C6: once the game is in the terminal state, a spawn-tick produces no new
enemies, a shoot-tick produces no new bullet, an update-tick changes no
entity position, and a bullet's movement step is a no-op: each step returns
the state unchanged. -/
theorem C6_terminal_state_freezes (g : Game) (coords : List (ℕ × ℝ × ℝ))
    (fresh : ℕ) (b : Bullet) (h : g.is_game_over = true) :
    g.update = some (g, false) ∧
    g.spawn_enemies_periodically coords = (g, false) ∧
    g.shoot_continuously fresh = some (g, true) ∧
    g.bullet_move b = some (g, b, false) := by
  obtain ⟨p, en, bu, pk, mx, my, igo, sc, w, ht⟩ := g
  cases h
  refine ⟨?_, ?_, ?_, ?_⟩
  · rfl
  · rfl
  · cases mx <;> cases my <;> rfl
  · unfold Game.bullet_move
    simp

theorem C6_terminal_state_freezes_witness :
    gOverW.update = some (gOverW, false) ∧
    gOverW.spawn_enemies_periodically [] = (gOverW, false) ∧
    gOverW.shoot_continuously 0 = some (gOverW, true) ∧
    gOverW.bullet_move bW = some (gOverW, bW, false) :=
  C6_terminal_state_freezes gOverW [] 0 bW rfl

theorem pyRemoveEnemy_not_mem {l : List Enemy} {i : ℕ}
    (h : i ∉ l.map Enemy.eid) : pyRemoveEnemy l i = none := by
  induction l with
  | nil => rfl
  | cons a rest ih =>
      simp only [List.map_cons, List.mem_cons, not_or] at h
      rw [pyRemoveEnemy, if_neg (fun he => h.1 he.symm), ih h.2]
      rfl

theorem pyRemoveBullet_not_mem {l : List Bullet} {i : ℕ}
    (h : i ∉ l.map Bullet.bid) : pyRemoveBullet l i = none := by
  induction l with
  | nil => rfl
  | cons a rest ih =>
      simp only [List.map_cons, List.mem_cons, not_or] at h
      rw [pyRemoveBullet, if_neg (fun he => h.1 he.symm), ih h.2]
      rfl

theorem pyRemoveBullet_mem {l : List Bullet} {i : ℕ}
    (h : i ∈ l.map Bullet.bid) : (pyRemoveBullet l i).isSome = true := by
  induction l with
  | nil => simp at h
  | cons a rest ih =>
      rw [pyRemoveBullet]
      by_cases he : a.bid = i
      · rw [if_pos he]; rfl
      · rw [if_neg he]
        simp only [List.map_cons, List.mem_cons] at h
        rcases h with h | h
        · exact absurd h.symm he
        · simpa using ih h

theorem pyRemoveBullet_length {l : List Bullet} {i : ℕ} :
    ∀ {l'}, pyRemoveBullet l i = some l' → l'.length + 1 = l.length := by
  induction l with
  | nil => intro l' h; cases h
  | cons a rest ih =>
      intro l' h
      rw [pyRemoveBullet] at h
      by_cases he : a.bid = i
      · rw [if_pos he] at h
        cases h
        rfl
      · rw [if_neg he] at h
        cases hr : pyRemoveBullet rest i with
        | none => rw [hr] at h; cases h
        | some l2 =>
            rw [hr] at h
            cases h
            simp [ih hr]

/-- C1 counterexample: removing the same enemy twice is not a no-op — the
second `remove_enemy` call hits `list.remove` on a non-member and raises
`ValueError` (modelled as `none`) instead of leaving the collection size
unchanged. -/
theorem C1_enemy_double_removal_errors :
    gOneEnemyW.remove_enemy eW = some gActiveW ∧
    gActiveW.remove_enemy eW = none := by
  constructor
  · show Option.map _ (pyRemoveEnemy [eW] eW.eid) = _
    rfl
  · rfl

/-- C1 (amended): bullet removal is idempotent — `remove_bullet` on a bullet
that is not (or no longer) in the bullet collection is a no-op; but enemy
removal is not — `remove_enemy` on a non-member enemy raises `ValueError`
rather than being a no-op. -/
theorem C1_removal_idempotence_amended :
    (∀ (g : Game) (b : Bullet), b.bid ∉ g.bullets.map Bullet.bid →
      g.remove_bullet b = (g, b)) ∧
    (∀ (g : Game) (e : Enemy), e.eid ∉ g.enemies.map Enemy.eid →
      g.remove_enemy e = none) := by
  constructor
  · intro g b h
    unfold Game.remove_bullet
    rw [pyRemoveBullet_not_mem h]
  · intro g e h
    unfold Game.remove_enemy
    rw [pyRemoveEnemy_not_mem h]
    rfl

theorem C1_removal_idempotence_amended_witness :
    gOneEnemyW.remove_bullet bW = (gOneEnemyW, bW) ∧
    gActiveW.remove_enemy eW = none :=
  ⟨C1_removal_idempotence_amended.1 gOneEnemyW bW (by simp [gOneEnemyW, gActiveW]),
   C1_removal_idempotence_amended.2 gActiveW eW (by simp [gActiveW])⟩

/-- C4 counterexample: `shoot_continuously` re-schedules itself
(`root.after(500, ...)` is unconditional) even when the game-over flag is
set, so it is a periodic task that never deregisters itself — the claim that
every periodic task stops rescheduling once the flag is set is false. -/
theorem C4_shoot_reschedules_after_game_over :
    gOverW.is_game_over = true ∧
    gOverW.shoot_continuously 0 = some (gOverW, true) := ⟨rfl, rfl⟩

/-- C4 (amended): the spawner and the main update tick test the game-over
flag on each invocation and stop rescheduling once it is set (the spawner
re-schedules exactly when the game is not over); the bullet-fire tick tests
the flag before producing a bullet but re-schedules itself unconditionally,
so it never deregisters. -/
theorem C4_deregistration_amended (g : Game) (coords : List (ℕ × ℝ × ℝ))
    (fresh : ℕ) :
    (g.spawn_enemies_periodically coords).2 = !g.is_game_over ∧
    (g.is_game_over = true → g.update = some (g, false)) ∧
    (∀ g' r, g.shoot_continuously fresh = some (g', r) → r = true) := by
  refine ⟨?_, ?_, ?_⟩
  · unfold Game.spawn_enemies_periodically
    cases hg : g.is_game_over
    · rw [if_pos rfl]
      rfl
    · rw [if_neg (by simp)]
      rfl
  · intro h
    unfold Game.update
    rw [if_pos (by simp [h])]
  · intro g' r h
    unfold Game.shoot_continuously at h
    cases hr : (match g.is_game_over, g.mouse_x, g.mouse_y with
      | false, some mx, some my =>
          (g.player_shoot fresh mx my).map
            (fun (r : Game × Option Bullet) =>
              match r.2 with
              | some b => { r.1 with bullets := r.1.bullets ++ [b] }
              | none => r.1)
      | _, _, _ => some g : Option Game) with
    | none => rw [hr] at h; cases h
    | some g1 =>
        rw [hr] at h
        cases h
        rfl

theorem C4_deregistration_amended_witness :
    (gOverW.spawn_enemies_periodically []).2 = !gOverW.is_game_over ∧
    gOverW.update = some (gOverW, false) ∧
    true = true := by
  refine ⟨(C4_deregistration_amended gOverW [] 0).1,
    (C4_deregistration_amended gOverW [] 0).2.1 rfl,
    (C4_deregistration_amended gOverW [] 0).2.2 gOverW true ?_⟩
  cases hmx : gOverW.mouse_x <;> rfl

/-- C10: a bullet successfully removed from the bullet collection has its
`alive` flag set to `false`, and a bullet whose `alive` flag is `false` (or
whose game is over) never changes its position again — its movement step is a
non-rescheduling no-op.  Hence no removed bullet ever moves. -/
theorem C10_removed_bullet_never_moves (g : Game) (b : Bullet) :
    (b.bid ∈ g.bullets.map Bullet.bid →
      (g.remove_bullet b).2.alive = false) ∧
    (b.alive = false → g.bullet_move b = some (g, b, false)) ∧
    (g.is_game_over = true → g.bullet_move b = some (g, b, false)) := by
  refine ⟨?_, ?_, ?_⟩
  · intro h
    unfold Game.remove_bullet
    cases hr : pyRemoveBullet g.bullets b.bid with
    | none =>
        have hs := pyRemoveBullet_mem h
        rw [hr] at hs
        simp at hs
    | some l => rfl
  · intro h
    unfold Game.bullet_move
    rw [if_pos (by simp [h])]
  · intro h
    unfold Game.bullet_move
    rw [if_pos (by simp [h])]

theorem C10_removed_bullet_never_moves_witness :
    (gOneBulletW.remove_bullet bW).2.alive = false ∧
    gOneBulletW.bullet_move { bW with alive := false } =
      some (gOneBulletW, { bW with alive := false }, false) :=
  ⟨(C10_removed_bullet_never_moves gOneBulletW bW).1 (by simp [gOneBulletW, gActiveW]),
   (C10_removed_bullet_never_moves gOneBulletW { bW with alive := false }).2.1 rfl⟩

/-- A live bullet in a running game with no enemies that stays in bounds
takes one Euler step and re-schedules itself. -/
theorem bullet_move_free (g : Game) (b : Bullet) (ha : b.alive = true)
    (hg : g.is_game_over = false) (he : g.enemies = [])
    (hin : isInBounds (b.x + b.dx) (b.y + b.dy) g.width g.height) :
    g.bullet_move b =
      some (g, { b with x := b.x + b.dx, y := b.y + b.dy }, true) := by
  unfold Game.bullet_move
  rw [if_neg (by simp [ha, hg])]
  dsimp only
  rw [if_pos hin]
  have hcc : g.bullet_check_collision
      { b with x := b.x + b.dx, y := b.y + b.dy } =
      some (g, { b with x := b.x + b.dx, y := b.y + b.dy }) := by
    unfold Game.bullet_check_collision firstHitEnemy
    rw [he]
    rfl
  rw [hcc]
  simp [ha]

theorem atan2_zero_of_pos {x : ℝ} (hx : 0 < x) : atan2 0 x = 0 := by
  unfold atan2
  rw [if_pos hx, zero_div, Real.arctan_zero]

theorem atan2_zero_zero : atan2 0 0 = 0 := by
  unfold atan2
  norm_num

/-- C9: a bullet created with target coordinates equal to its own start
position gets angle `atan2(0, 0) = 0` and therefore velocity exactly
`(speed, 0) = (10, 0)` — bullet creation has no zero-distance guard (unlike
`Enemy.move_towards`) — and such a bullet moves at full speed in the `+x`
direction on its movement step. -/
theorem C9_zero_distance_bullet (bid : ℕ) (x0 y0 : ℝ) (g : Game)
    (hg : g.is_game_over = false) (he : g.enemies = [])
    (hin : isInBounds (x0 + 10) y0 g.width g.height) :
    (mkBullet bid x0 y0 x0 y0).angle = 0 ∧
    (mkBullet bid x0 y0 x0 y0).dx = 10 ∧
    (mkBullet bid x0 y0 x0 y0).dy = 0 ∧
    (g.bullet_move (mkBullet bid x0 y0 x0 y0)).map
        (fun r => (r.2.1.x, r.2.1.y, r.2.2)) = some (x0 + 10, y0, true) := by
  have hangle : (mkBullet bid x0 y0 x0 y0).angle = 0 := by
    show atan2 (y0 - y0) (x0 - x0) = 0
    rw [sub_self, sub_self]
    exact atan2_zero_zero
  have hdx : (mkBullet bid x0 y0 x0 y0).dx = 10 := by
    show 10 * Real.cos (atan2 (y0 - y0) (x0 - x0)) = 10
    rw [show atan2 (y0 - y0) (x0 - x0) = 0 from hangle, Real.cos_zero, mul_one]
  have hdy : (mkBullet bid x0 y0 x0 y0).dy = 0 := by
    show 10 * Real.sin (atan2 (y0 - y0) (x0 - x0)) = 0
    rw [show atan2 (y0 - y0) (x0 - x0) = 0 from hangle, Real.sin_zero, mul_zero]
  have hx : (mkBullet bid x0 y0 x0 y0).x = x0 := rfl
  have hy : (mkBullet bid x0 y0 x0 y0).y = y0 := rfl
  have hin2 : isInBounds ((mkBullet bid x0 y0 x0 y0).x + (mkBullet bid x0 y0 x0 y0).dx)
      ((mkBullet bid x0 y0 x0 y0).y + (mkBullet bid x0 y0 x0 y0).dy)
      g.width g.height := by
    rw [hx, hy, hdx, hdy, add_zero]
    exact hin
  refine ⟨hangle, hdx, hdy, ?_⟩
  rw [bullet_move_free g (mkBullet bid x0 y0 x0 y0) rfl hg he hin2]
  simp only [Option.map_some']
  rw [Option.some.injEq, Prod.mk.injEq]
  refine ⟨?_, ?_⟩
  · show (mkBullet bid x0 y0 x0 y0).x + (mkBullet bid x0 y0 x0 y0).dx = x0 + 10
    rw [hx, hdx]
  · rw [Prod.mk.injEq]
    refine ⟨?_, rfl⟩
    show (mkBullet bid x0 y0 x0 y0).y + (mkBullet bid x0 y0 x0 y0).dy = y0
    rw [hy, hdy, add_zero]

theorem C9_zero_distance_bullet_witness :
    (mkBullet 0 100 100 100 100).angle = 0 ∧
    (mkBullet 0 100 100 100 100).dx = 10 ∧
    (mkBullet 0 100 100 100 100).dy = 0 ∧
    (gActiveW.bullet_move (mkBullet 0 100 100 100 100)).map
        (fun r => (r.2.1.x, r.2.1.y, r.2.2)) = some (100 + 10, 100, true) :=
  C9_zero_distance_bullet 0 100 100 gActiveW rfl rfl
    (by norm_num [isInBounds, gActiveW])

/-- The displacement to the target after `move_towards` scales the previous
displacement by `1 - speed / D`, with `D` the distance clamped below by 1. -/
theorem move_towards_offset (e : Enemy) (tx ty : ℝ) :
    tx - (e.move_towards tx ty).x =
      (tx - e.x) * (1 - e.speed / max (hypot (tx - e.x) (ty - e.y)) 1) ∧
    ty - (e.move_towards tx ty).y =
      (ty - e.y) * (1 - e.speed / max (hypot (tx - e.x) (ty - e.y)) 1) := by
  constructor
  · show tx - (e.x + ((tx - e.x) / max (hypot (tx - e.x) (ty - e.y)) 1) *
        e.speed) = _
    ring
  · show ty - (e.y + ((ty - e.y) / max (hypot (tx - e.x) (ty - e.y)) 1) *
        e.speed) = _
    ring

/-- C3 (amended): one `move_towards` call never increases the Euclidean
distance to the target, and reduces it by exactly the enemy's speed (2)
whenever the current distance is at least that speed.  For distances below
the speed the reduction is smaller (the enemy overshoots; at distance ≤ 1
the clamped step leaves the distance unchanged), so "reduces by exactly
`speed` for every position distinct from the target" does not hold. -/
theorem C3_move_towards_distance_amended (e : Enemy) (tx ty : ℝ)
    (hs : e.speed = 2) :
    hypot (tx - (e.move_towards tx ty).x) (ty - (e.move_towards tx ty).y) ≤
      hypot (tx - e.x) (ty - e.y) ∧
    (2 ≤ hypot (tx - e.x) (ty - e.y) →
      hypot (tx - (e.move_towards tx ty).x) (ty - (e.move_towards tx ty).y) =
        hypot (tx - e.x) (ty - e.y) - 2) := by
  obtain ⟨hox, hoy⟩ := move_towards_offset e tx ty
  set d := hypot (tx - e.x) (ty - e.y) with hd
  set D := max d 1 with hD
  have hD1 : (1:ℝ) ≤ D := le_max_right _ _
  have hD0 : (0:ℝ) < D := lt_of_lt_of_le one_pos hD1
  have hkey : hypot (tx - (e.move_towards tx ty).x)
      (ty - (e.move_towards tx ty).y) = |1 - 2 / D| * d := by
    rw [hox, hoy, hs, hypot_scale]
  have habs : |1 - 2 / D| ≤ 1 := by
    rw [abs_le]
    constructor
    · have h2D : 2 / D ≤ 2 := by
        rw [div_le_iff₀ hD0]
        nlinarith
      linarith
    · have h0D : 0 ≤ 2 / D := by positivity
      linarith
  constructor
  · rw [hkey]
    calc |1 - 2 / D| * d ≤ 1 * d :=
          mul_le_mul_of_nonneg_right habs (hypot_nonneg _ _)
      _ = d := one_mul d
  · intro h2
    have hd1 : (1:ℝ) ≤ d := le_trans one_le_two h2
    have hDd : D = d := max_eq_left hd1
    have hdpos : (0:ℝ) < d := lt_of_lt_of_le two_pos h2
    have hne : d ≠ 0 := ne_of_gt hdpos
    rw [hkey, hDd,
      abs_of_nonneg (by rw [sub_nonneg]; exact (div_le_one hdpos).mpr h2)]
    field_simp

/-- A concrete enemy at the origin. -/
def eOriginW : Enemy := { eid := 0, x := 0, y := 0 }

/-- C3 counterexample: the enemy at (0,0) is distinct from the target (1,0)
and at Euclidean distance 1 from it; `move_towards(1, 0)` moves it to (2,0),
still at distance 1.  The call did not reduce the distance by the speed 2 —
it did not reduce it at all. -/
theorem C3_distance_not_reduced_by_speed :
    (eOriginW.x, eOriginW.y) ≠ ((1:ℝ), (0:ℝ)) ∧
    hypot (1 - eOriginW.x) (0 - eOriginW.y) = 1 ∧
    (eOriginW.move_towards 1 0).x = 2 ∧
    (eOriginW.move_towards 1 0).y = 0 ∧
    hypot (1 - (eOriginW.move_towards 1 0).x)
      (0 - (eOriginW.move_towards 1 0).y) = 1 := by
  have h1 : hypot ((1:ℝ) - eOriginW.x) ((0:ℝ) - eOriginW.y) = 1 := by
    show hypot (1 - 0) (0 - 0) = 1
    norm_num [hypot_x_zero]
  have hx2 : (eOriginW.move_towards 1 0).x = 2 := by
    show eOriginW.x + ((1 - eOriginW.x) /
        max (hypot (1 - eOriginW.x) (0 - eOriginW.y)) 1) * eOriginW.speed = 2
    rw [h1]
    show (0:ℝ) + ((1 - 0) / max 1 1) * 2 = 2
    norm_num
  have hy2 : (eOriginW.move_towards 1 0).y = 0 := by
    show eOriginW.y + ((0 - eOriginW.y) /
        max (hypot (1 - eOriginW.x) (0 - eOriginW.y)) 1) * eOriginW.speed = 0
    rw [h1]
    show (0:ℝ) + ((0 - 0) / max 1 1) * 2 = 0
    norm_num
  refine ⟨?_, h1, hx2, hy2, ?_⟩
  · intro h
    have := congrArg Prod.fst h
    norm_num [eOriginW] at this
  · rw [hx2, hy2]
    norm_num [hypot_x_zero]

theorem C3_move_towards_distance_amended_witness :
    (2:ℝ) ≤ hypot (5 - eOriginW.x) (0 - eOriginW.y) ∧
    hypot (5 - (eOriginW.move_towards 5 0).x)
        (0 - (eOriginW.move_towards 5 0).y) =
      hypot (5 - eOriginW.x) (0 - eOriginW.y) - 2 := by
  have h5 : hypot ((5:ℝ) - eOriginW.x) ((0:ℝ) - eOriginW.y) = 5 := by
    show hypot (5 - 0) (0 - 0) = 5
    norm_num [hypot_x_zero]
  have h2 : (2:ℝ) ≤ hypot (5 - eOriginW.x) (0 - eOriginW.y) := by
    rw [h5]; norm_num
  exact ⟨h2, (C3_move_towards_distance_amended eOriginW 5 0 rfl).2 h2⟩

/-- A live bullet with velocity `(10, 0)` flying through an enemy-free,
running game advances its `x` coordinate by 10 per movement tick as long as
it stays inside the 800×600 canvas. -/
theorem bullet_path (g : Game) (hg : g.is_game_over = false)
    (he : g.enemies = []) (hw : g.width = 800) (hh : g.height = 600) :
    ∀ (n : ℕ) (b : Bullet), b.alive = true → b.dx = 10 → b.dy = 0 →
      0 ≤ b.x → b.x + 10 * (n : ℝ) ≤ 800 → 0 ≤ b.y → b.y ≤ 600 →
      (bulletMoveN n g b).map (fun r => (r.2.x, r.2.y)) =
        some (b.x + 10 * (n : ℝ), b.y) := by
  intro n
  induction n with
  | zero =>
      intro b ha hdx hdy h0 h1 h2 h3
      simp [bulletMoveN]
  | succ k ih =>
      intro b ha hdx hdy h0 h1 h2 h3
      have hcast : (((k : ℕ) + 1 : ℕ) : ℝ) = (k : ℝ) + 1 := by push_cast; ring
      have hstep : g.bullet_move b =
          some (g, { b with x := b.x + b.dx, y := b.y + b.dy }, true) := by
        refine bullet_move_free g b ha hg he ?_
        rw [hdx, hdy, hw, hh, add_zero]
        refine ⟨by linarith, by rw [hcast] at h1; linarith, h2, h3⟩
      rw [bulletMoveN, hstep, Option.some_bind]
      have hrec := ih { b with x := b.x + b.dx, y := b.y + b.dy } ha
        hdx hdy (by show 0 ≤ b.x + b.dx; rw [hdx]; linarith)
        (by show b.x + b.dx + 10 * (k : ℝ) ≤ 800
            rw [hdx]; rw [hcast] at h1; linarith)
        (by show 0 ≤ b.y + b.dy; rw [hdy, add_zero]; exact h2)
        (by show b.y + b.dy ≤ 600; rw [hdy, add_zero]; exact h3)
      rw [hrec]
      rw [Option.some.injEq, Prod.mk.injEq]
      constructor
      · show b.x + b.dx + 10 * (k : ℝ) = b.x + 10 * (((k : ℕ) + 1 : ℕ) : ℝ)
        rw [hdx, hcast]; ring
      · show b.y + b.dy = b.y
        rw [hdy, add_zero]

/-- C8: a bullet created at (100,100) with target (200,100) and speed 10 has
velocity `(10, 0)` (angle fixed once via `atan2` at creation), and five
movement ticks of Euler integration (the constructor's immediate `move()`
counted as the first) bring it from (100,100) to (150,100) in a running,
enemy-free game on the 800×600 canvas. -/
theorem C8_bullet_straight_scenario (g : Game) (bid : ℕ)
    (hg : g.is_game_over = false) (he : g.enemies = [])
    (hw : g.width = 800) (hh : g.height = 600) :
    (mkBullet bid 100 100 200 100).dx = 10 ∧
    (mkBullet bid 100 100 200 100).dy = 0 ∧
    (bulletMoveN 5 g (mkBullet bid 100 100 200 100)).map
        (fun r => (r.2.x, r.2.y)) = some (150, 100) := by
  have hangle : (mkBullet bid 100 100 200 100).angle = 0 := by
    show atan2 (100 - 100) (200 - 100) = 0
    norm_num
    exact atan2_zero_of_pos (by norm_num)
  have hdx : (mkBullet bid 100 100 200 100).dx = 10 := by
    show 10 * Real.cos (atan2 (100 - 100) (200 - 100)) = 10
    rw [show atan2 ((100:ℝ) - 100) ((200:ℝ) - 100) = 0 from hangle,
      Real.cos_zero, mul_one]
  have hdy : (mkBullet bid 100 100 200 100).dy = 0 := by
    show 10 * Real.sin (atan2 (100 - 100) (200 - 100)) = 0
    rw [show atan2 ((100:ℝ) - 100) ((200:ℝ) - 100) = 0 from hangle,
      Real.sin_zero, mul_zero]
  refine ⟨hdx, hdy, ?_⟩
  have hp := bullet_path g hg he hw hh 5 (mkBullet bid 100 100 200 100)
    rfl hdx hdy (by show (0:ℝ) ≤ 100; norm_num)
    (by show (100:ℝ) + 10 * ((5:ℕ) : ℝ) ≤ 800; norm_num)
    (by show (0:ℝ) ≤ 100; norm_num) (by show (100:ℝ) ≤ 600; norm_num)
  rw [hp, Option.some.injEq, Prod.mk.injEq]
  constructor
  · show (100:ℝ) + 10 * ((5:ℕ) : ℝ) = 150
    norm_num
  · rfl

theorem C8_bullet_straight_scenario_witness :
    (mkBullet 0 100 100 200 100).dx = 10 ∧
    (mkBullet 0 100 100 200 100).dy = 0 ∧
    (bulletMoveN 5 gActiveW (mkBullet 0 100 100 200 100)).map
        (fun r => (r.2.x, r.2.y)) = some (150, 100) :=
  C8_bullet_straight_scenario gActiveW 0 rfl rfl rfl rfl

/-- `find?` over the enemy snapshot returns the first in-radius enemy. -/
theorem firstHitEnemy_split (post : List Enemy) (e : Enemy) (bx b_y : ℝ)
    (hhit : e.is_hit bx b_y) :
    ∀ pre : List Enemy, (∀ a ∈ pre, ¬ a.is_hit bx b_y) →
      firstHitEnemy (pre ++ e :: post) bx b_y = some e := by
  intro pre
  induction pre with
  | nil =>
      intro _
      rw [List.nil_append]
      unfold firstHitEnemy
      have hpos : (fun x : Enemy => decide (x.is_hit bx b_y)) e = true :=
        decide_eq_true hhit
      exact List.find?_cons_of_pos post hpos
  | cons a rest ih =>
      intro hpre
      rw [List.cons_append]
      unfold firstHitEnemy at ih ⊢
      have hna : ¬ (fun x : Enemy => decide (x.is_hit bx b_y)) a = true := by
        simpa using hpre a (List.mem_cons_self a rest)
      rw [List.find?_cons_of_neg (rest ++ e :: post) hna]
      exact ih (fun x hx => hpre x (List.mem_cons_of_mem a hx))

/-- `list.remove` drops exactly the first element carrying the removed
enemy's identity when no earlier element carries it. -/
theorem pyRemoveEnemy_split (post : List Enemy) (e : Enemy) :
    ∀ pre : List Enemy, e.eid ∉ pre.map Enemy.eid →
      pyRemoveEnemy (pre ++ e :: post) e.eid = some (pre ++ post) := by
  intro pre
  induction pre with
  | nil =>
      intro _
      rw [List.nil_append, pyRemoveEnemy, if_pos rfl, List.nil_append]
  | cons a rest ih =>
      intro hpre
      simp only [List.map_cons, List.mem_cons, not_or] at hpre
      rw [List.cons_append, pyRemoveEnemy, if_neg (fun h => hpre.1 h.symm),
        ih hpre.2]
      rfl

/-- C7: when a bullet is within collision radius of several enemies in the
same tick, `Bullet.check_collision` resolves a hit only against the first
in-radius enemy in the stable iteration order of the enemy collection: that
enemy is removed while every other enemy (hit or not) remains, the bullet is
removed from the bullet collection with its alive flag cleared, and the
score increases by exactly 1 — no second enemy is removed by the same
bullet. -/
theorem C7_first_hit_only (g : Game) (b : Bullet) (pre post : List Enemy)
    (e : Enemy) (hsplit : g.enemies = pre ++ e :: post)
    (hpre : ∀ a ∈ pre, ¬ a.is_hit b.x b.y)
    (hhit : e.is_hit b.x b.y)
    (heid : e.eid ∉ pre.map Enemy.eid) :
    ∀ l', pyRemoveBullet g.bullets b.bid = some l' →
      g.bullet_check_collision b =
        some ({ g with enemies := pre ++ post
                       bullets := l'
                       score := g.score + 1 },
              { b with alive := false }) ∧
      l'.length + 1 = g.bullets.length := by
  intro l' hl'
  refine ⟨?_, pyRemoveBullet_length hl'⟩
  have hfind : firstHitEnemy g.enemies b.x b.y = some e := by
    rw [hsplit]
    exact firstHitEnemy_split post e b.x b.y hhit pre hpre
  have hrem : g.remove_enemy e = some { g with enemies := pre ++ post } := by
    unfold Game.remove_enemy
    rw [hsplit, pyRemoveEnemy_split post e pre heid]
    rfl
  unfold Game.bullet_check_collision
  rw [hfind]
  dsimp only
  rw [hrem]
  simp only [Option.map_some']
  unfold Game.remove_bullet
  dsimp only
  rw [hl']

/-- Bullet and enemies for the C7 scenario: one bullet at (100,100), two
enemies at distances 5 and 10, both inside the collision radius 20. -/
def bC7W : Bullet :=
  { bid := 3, x := 100, y := 100, angle := 0, dx := 10, dy := 0 }

def e1W : Enemy := { eid := 1, x := 105, y := 100 }

def e2W : Enemy := { eid := 2, x := 110, y := 100 }

def gC7W : Game := { gActiveW with enemies := [e1W, e2W], bullets := [bC7W] }

theorem C7_first_hit_only_witness :
    gC7W.bullet_check_collision bC7W =
      some ({ gC7W with enemies := [] ++ [e2W]
                        bullets := []
                        score := gC7W.score + 1 },
            { bC7W with alive := false }) ∧
    List.length ([] : List Bullet) + 1 = gC7W.bullets.length := by
  have hhit : e1W.is_hit bC7W.x bC7W.y := by
    show hypot ((105:ℝ) - 100) ((100:ℝ) - 100) < 20
    rw [show ((105:ℝ) - 100) = 5 by norm_num,
      show ((100:ℝ) - 100) = 0 by norm_num, hypot_x_zero]
    norm_num
  exact C7_first_hit_only gC7W bC7W [] [e2W] e1W rfl (by simp) hhit
    (by simp) [] rfl

/-- `remove_enemy` changes only the enemy collection. -/
theorem remove_enemy_fields {g g' : Game} {e : Enemy}
    (h : g.remove_enemy e = some g') :
    g'.player = g.player ∧ g'.is_game_over = g.is_game_over := by
  unfold Game.remove_enemy at h
  cases hp : pyRemoveEnemy g.enemies e.eid with
  | none => rw [hp] at h; cases h
  | some l =>
      rw [hp] at h
      simp only [Option.map_some'] at h
      injection h with h2
      subst h2
      exact ⟨rfl, rfl⟩

/-- `Player.check_collision` either reports no hit and leaves the state
unchanged, or reports a hit, decrements health by exactly one, and ends
flagged exactly when it was flagged already or the decremented health is
≤ 0. -/
theorem player_check_collision_spec (g : Game) (e : Enemy) :
    g.player_check_collision e = (g, false) ∨
    ((g.player_check_collision e).2 = true ∧
     (g.player_check_collision e).1.player.health = g.player.health - 1 ∧
     ((g.player_check_collision e).1.is_game_over = true ↔
       (g.is_game_over = true ∨ g.player.health - 1 ≤ 0))) := by
  unfold Game.player_check_collision
  by_cases hc : hypot (g.player.x - e.x) (g.player.y - e.y) < 20
  · right
    rw [if_pos hc]
    dsimp only
    by_cases h0 : g.player.health - 1 ≤ 0
    · rw [if_pos h0]
      exact ⟨rfl, rfl, iff_of_true rfl (Or.inr h0)⟩
    · rw [if_neg h0]
      refine ⟨rfl, rfl, ?_⟩
      constructor
      · exact fun hf => Or.inl hf
      · rintro (hf | hh)
        · exact hf
        · exact absurd hh h0
  · left
    rw [if_neg hc]

/-- Health/flag bookkeeping of the enemy loop of `Game.update`: health never
increases, the flag never resets, and — from a running state with positive
health — the loop ends flagged exactly when it ends with health ≤ 0. -/
theorem updateLoop_health_flag :
    ∀ (l : List Enemy) (g g' : Game), updateLoop g l = some g' →
      g'.player.health ≤ g.player.health ∧
      (g.is_game_over = true → g'.is_game_over = true) ∧
      ((g.is_game_over = false → 0 < g.player.health) →
        (g'.is_game_over = true ↔
          (g.is_game_over = true ∨ g'.player.health ≤ 0))) := by
  intro l
  induction l with
  | nil =>
      intro g g' h
      rw [updateLoop] at h
      injection h with h
      subst h
      refine ⟨le_refl _, fun hf => hf, fun hI => ⟨fun hf => Or.inl hf, ?_⟩⟩
      rintro (hf | hh)
      · exact hf
      · cases hb : g.is_game_over
        · have hpos := hI hb
          linarith
        · rfl
  | cons e rest ih =>
      intro g g' h
      rw [updateLoop] at h
      rcases player_check_collision_spec
          { g with
            enemies := setEnemy g.enemies e.eid
                          (e.move_towards g.player.x g.player.y) }
          (e.move_towards g.player.x g.player.y) with hno | ⟨h2, hh, hiff⟩
      · rw [hno] at h
        dsimp only at h
        obtain ⟨ihh, ihm, ihiff⟩ := ih _ g' h
        exact ⟨ihh, ihm, fun hI => ihiff hI⟩
      · rw [h2] at h
        cases hrem : ({ g with
              enemies := setEnemy g.enemies e.eid
                            (e.move_towards g.player.x g.player.y)
              : Game }.player_check_collision
              (e.move_towards g.player.x g.player.y)).1.remove_enemy
              (e.move_towards g.player.x g.player.y) with
        | none =>
            rw [hrem] at h
            exact Option.noConfusion
              (show (none : Option Game) = some g' from h)
        | some g2 =>
            rw [hrem] at h
            obtain ⟨hp2, hf2⟩ := remove_enemy_fields hrem
            obtain ⟨ihh, ihm, ihiff⟩ := ih g2 g' h
            have hg2h : g2.player.health = g.player.health - 1 := by
              rw [hp2]
              exact hh
            have hg2f : g2.is_game_over = true ↔
                (g.is_game_over = true ∨ g.player.health - 1 ≤ 0) := by
              rw [hf2]
              exact hiff
            have hInv : g2.is_game_over = false → 0 < g2.player.health := by
              intro hg2false
              have hng : ¬(g.is_game_over = true ∨
                  g.player.health - 1 ≤ 0) := by
                intro hor
                have htrue := hg2f.mpr hor
                rw [htrue] at hg2false
                exact absurd hg2false (by simp)
              push_neg at hng
              rw [hg2h]
              linarith [hng.2]
            have hiff2 := ihiff hInv
            refine ⟨by linarith, ?_, fun _ => ?_⟩
            · intro hf
              exact ihm (hg2f.mpr (Or.inl hf))
            · constructor
              · intro hf
                rcases hiff2.mp hf with hg2t | hle
                · rcases hg2f.mp hg2t with hgt | hhle
                  · exact Or.inl hgt
                  · refine Or.inr ?_
                    rw [hg2h] at ihh
                    linarith
                · exact Or.inr hle
              · rintro (hf | hle)
                · exact ihm (hg2f.mpr (Or.inl hf))
                · exact hiff2.mpr (Or.inr hle)

/-- C2 (amended): over an update tick, player health is non-increasing, and a
terminal state stays terminal unchanged (the flag never resets); from a
running state with positive health, the tick ends in the terminal state
exactly when it ends with health ≤ 0, so the flag transition fires on the
tick where health first reaches ≤ 0 and on no other tick.  Health, however,
is not clamped at zero: it can become negative on the killing tick (see the
counterexample), so only this weakened form of the claim holds. -/
theorem C2_health_flag_amended (g g' : Game) (r : Bool)
    (h : g.update = some (g', r)) :
    (g.is_game_over = true → g' = g) ∧
    g'.player.health ≤ g.player.health ∧
    (g.is_game_over = false → 0 < g.player.health →
      (g'.is_game_over = true ↔ g'.player.health ≤ 0)) := by
  unfold Game.update at h
  by_cases hgo : g.is_game_over = true
  · rw [if_pos (by simp [hgo])] at h
    rw [Option.some.injEq, Prod.mk.injEq] at h
    obtain ⟨hg', _⟩ := h
    subst hg'
    refine ⟨fun _ => rfl, le_refl _, fun hf _ => ?_⟩
    rw [hf] at hgo
    exact absurd hgo (by simp)
  · rw [if_neg (by simpa using hgo)] at h
    dsimp only at h
    cases hloop : updateLoop
        { g with
          player :=
            g.player.move (keyVal g.pressed_keys "d" - keyVal g.pressed_keys "a")
              (keyVal g.pressed_keys "s" - keyVal g.pressed_keys "w") }
        g.enemies with
    | none =>
        rw [hloop] at h
        exact Option.noConfusion
          (show (none : Option (Game × Bool)) = some (g', r) from h)
    | some g2 =>
        rw [hloop] at h
        rw [Option.map_some', Option.some.injEq, Prod.mk.injEq] at h
        obtain ⟨hg', _⟩ := h
        subst hg'
        obtain ⟨ihh, _, ihiff⟩ := updateLoop_health_flag _ _ _ hloop
        refine ⟨fun hf => absurd hf hgo, ihh, fun hf hpos => ?_⟩
        have hiff := ihiff (fun _ => hpos)
        rw [hiff]
        constructor
        · rintro (hft | hle)
          · exact absurd hft hgo
          · exact hle
        · exact fun hle => Or.inr hle

/-- The state `gActiveW.update` steps to (player moved by the zero key
delta). -/
noncomputable def gMovedW : Game :=
  { gActiveW with
    player :=
      gActiveW.player.move
        (keyVal gActiveW.pressed_keys "d" - keyVal gActiveW.pressed_keys "a")
        (keyVal gActiveW.pressed_keys "s" - keyVal gActiveW.pressed_keys "w") }

theorem C2_health_flag_amended_witness :
    gMovedW.player.health ≤ gActiveW.player.health ∧
    (gMovedW.is_game_over = true ↔ gMovedW.player.health ≤ 0) :=
  ⟨(C2_health_flag_amended gActiveW gMovedW true rfl).2.1,
   (C2_health_flag_amended gActiveW gMovedW true rfl).2.2 rfl (by decide)⟩
/-- An enemy sitting exactly at the given point does not move (the clamped
zero-distance step). -/
theorem move_towards_coincident (e : Enemy) (px py : ℝ) (hx : px = e.x)
    (hy : py = e.y) : e.move_towards px py = e := by
  unfold Enemy.move_towards
  rw [hx, hy, sub_self, sub_self]
  dsimp only
  rw [show hypot 0 0 = 0 by rw [hypot_x_zero, abs_zero]]
  norm_num

/-- A collision check with the enemy exactly on the player: health drops by
one, and — when the decremented health is ≤ 0 — the game-over routine runs
(again, if it already ran). -/
theorem pcc_coincident (g : Game) (e : Enemy) (hx : g.player.x = e.x)
    (hy : g.player.y = e.y) (h0 : g.player.health - 1 ≤ 0) :
    g.player_check_collision e =
      ({ g with
         player := { g.player with health := g.player.health - 1 }
         is_game_over := true }, true) := by
  unfold Game.player_check_collision
  rw [if_pos (by
    rw [hx, hy, sub_self, sub_self,
      show hypot 0 0 = 0 by rw [hypot_x_zero, abs_zero]]
    norm_num)]
  dsimp only
  rw [if_pos h0]
  rfl

/-- Two enemies exactly on top of the player, health 1: the killing tick. -/
def eAW : Enemy := { eid := 1, x := 100, y := 100 }

def eBW : Enemy := { eid := 2, x := 100, y := 100 }

def gLowHealthW : Game :=
  { player := { x := 100, y := 100, speed := 5, health := 1 },
    enemies := [eAW, eBW], bullets := [], pressed_keys := [],
    mouse_x := none, mouse_y := none, is_game_over := false, score := 0 }

/-- The states `gLowHealthW` passes through on its update tick. -/
def gS1 : Game :=
  { gLowHealthW with
    player := { gLowHealthW.player with
                health := gLowHealthW.player.health - 1 }
    is_game_over := true }

def gS2 : Game := { gS1 with enemies := [eBW] }

def gS3 : Game :=
  { gS2 with
    player := { gS2.player with health := gS2.player.health - 1 }
    is_game_over := true }

def gS4 : Game := { gS3 with enemies := [] }

/-- C2 counterexample: with health 1 and two enemies within collision radius
of the player on the same update tick, the tick decrements health once per
colliding enemy: the tick ends with health = -1.  Health does become
negative — the code has no clamp to zero — so the claim "health ... never
becomes negative ... even when several enemies are within collision radius
of the player in the same update tick" is false. -/
theorem C2_health_becomes_negative :
    gLowHealthW.player.health = 1 ∧
    gLowHealthW.update.map (fun r => (r.1.player.health, r.1.is_game_over)) =
      some (-1, true) := by
  refine ⟨rfl, ?_⟩
  have hkey : ∀ k, keyVal gLowHealthW.pressed_keys k = 0 := by
    intro k
    unfold keyVal
    rw [if_neg (by simp [gLowHealthW])]
  have hpm : gLowHealthW.player.move
      (keyVal gLowHealthW.pressed_keys "d" - keyVal gLowHealthW.pressed_keys "a")
      (keyVal gLowHealthW.pressed_keys "s" - keyVal gLowHealthW.pressed_keys "w")
      = gLowHealthW.player := by
    unfold Player.move
    rw [hkey, hkey, hkey, hkey]
    norm_num
  have hrun : updateLoop gLowHealthW [eAW, eBW] = some gS4 := by
    rw [updateLoop]
    rw [move_towards_coincident eAW gLowHealthW.player.x gLowHealthW.player.y
      rfl rfl]
    rw [show ({ gLowHealthW with
        enemies := setEnemy gLowHealthW.enemies eAW.eid eAW } : Game) =
      gLowHealthW from rfl]
    rw [pcc_coincident gLowHealthW eAW rfl rfl (by decide)]
    show updateLoop gS2 [eBW] = some gS4
    rw [updateLoop]
    rw [move_towards_coincident eBW gS2.player.x gS2.player.y rfl rfl]
    rw [show ({ gS2 with
        enemies := setEnemy gS2.enemies eBW.eid eBW } : Game) = gS2 from rfl]
    rw [pcc_coincident gS2 eBW rfl rfl (by decide)]
    rfl
  unfold Game.update
  rw [if_neg (show ¬(gLowHealthW.is_game_over = true) from
    fun hcon => Bool.noConfusion hcon)]
  dsimp only
  rw [hpm]
  rw [show ({ gLowHealthW with player := gLowHealthW.player } : Game) =
    gLowHealthW from rfl]
  rw [show gLowHealthW.enemies = [eAW, eBW] from rfl]
  rw [hrun, Option.map_some', Option.map_some', Option.some.injEq,
    Prod.mk.injEq]
  exact ⟨by decide, rfl⟩

end Game2
